import Mathlib

/-!
Verification of the predicate-to-SQL compiler in `skydb/pq/builder.go`.

The Go source is shallowly embedded: each Go function becomes a Lean
definition of the same name, Go `(value, error)` returns become explicit
result types, Go panics become a separate failure constructor, and the
mutable `predicateSqlizerFactory` (reached through a pointer in Go) is
threaded as explicit state.  Machine strings are Lean `String`s; the
dynamic `interface\x7b\x7d` values that can occur in predicates are modelled by
closed inductive types covering exactly the cases the Go code switches on.
-/

/-- A dynamic Go value (`interface\x7b\x7d`) as it occurs in literals and bind
argument lists: scalars, a `skydb.Reference` (carrying `ID.Key`), arrays,
and `nil`.  `literalToSQLOperand` in builder.go distinguishes exactly
"array" versus "everything else", and `literalToSQLValue` distinguishes
`skydb.Reference` from everything else. -/
inductive Value where
  | str (s : String)
  | num (q : Rat)
  | boolean (b : Bool)
  | ref (key : String)
  | arr (elems : List Value)
  | null

/-- `skydb.Location`; the two coordinates of Go's float64 pair are modelled
as exact rationals. -/
structure Location where
  lng : Rat
  lat : Rat

/-- The `skydb.Func` variants dispatched on in builder.go
(`funcToSQLOperand`, `newFunctionalPredicateSqlizer`, `funcOrderBySQL`).
`skydb` itself is not among the sources; the variant list and fields are
those the builder code uses, which match spec section 3. -/
inductive Func where
  | distance (field : String) (location : Location)
  | count (overallRecords : Bool)
  | userData (dataName : String)
  | userRelation (relationName relationDirection keyPath user : String)
  | userDiscover (args : List (String × Value))

/-- `skydb.Expression`: tag plus value, merged into one inductive.
Modelled from the spec: the `skydb` package is not among the sources; the
spec (section 3) gives the tagged union \x7bKeyPath, Literal, Function\x7d,
matching the three cases builder.go switches on. -/
inductive Expression where
  | keyPath (s : String)
  | literal (v : Value)
  | function (f : Func)

/-- `skydb.Operator`.  Modelled from the spec (section 3): the operator
set \x7bAnd, Or, Not, Equal, NotEqual, GreaterThan, LessThan,
GreaterThanOrEqual, LessThanOrEqual, Like, ILike, In, Functional\x7d. -/
inductive Operator where
  | and
  | or
  | not
  | equal
  | greaterThan
  | lessThan
  | greaterThanOrEqual
  | lessThanOrEqual
  | notEqual
  | like
  | ilike
  | inOp
  | functional
deriving DecidableEq

/-- `Operator.IsCompound`.  Modelled from the spec: builder.go routes
And/Or/Not through `newCompoundPredicateSqlizer` (spec section 4.1 lists
exactly these as the compound cases). -/
def Operator.IsCompound : Operator → Bool
  | .and => true
  | .or => true
  | .not => true
  | _ => false

/-- `Operator.IsBinary`.  Modelled from the spec (section 4.1): the eight
binary comparison operators handled by `comparisonPredicateSqlizer`. -/
def Operator.IsBinary : Operator → Bool
  | .equal => true
  | .greaterThan => true
  | .lessThan => true
  | .greaterThanOrEqual => true
  | .lessThanOrEqual => true
  | .notEqual => true
  | .like => true
  | .ilike => true
  | _ => false

/-- `skydb.Predicate`.  In Go, `Children` is `[]interface\x7b\x7d` whose
elements are `skydb.Predicate` or `skydb.Expression` values (the only two
types the builder ever casts to); the union of the two is one inductive,
`.exprChild` being the Expression case.  A Go type-assertion failure is
modelled as a panic at the use site. -/
inductive Predicate where
  | node (op : Operator) (children : List Predicate)
  | exprChild (e : Expression)

/-- `Predicate.IsEmpty`.  Modelled from the spec: `skydb` is not among the
sources; per spec section 3 an empty predicate is one with no content, so
a node with no children counts as empty (and a bare expression is not a
predicate at all).  All claims below concern non-empty predicates, so
only the value on non-empty nodes matters. -/
def Predicate.IsEmpty : Predicate → Bool
  | .node _ cs => cs.isEmpty
  | .exprChild _ => true

/-- `skydb.UserInfo`, as used by `accessPredicateSqlizer`: the user id and
the role-name list.  Modelled from the spec (section 3). -/
structure UserInfo where
  ID : String
  Roles : List String

/-- `skydb.ACLLevel` (an opaque tag; `accessPredicateSqlizer.ToSql` never
inspects it). -/
abbrev ACLLevel := String

/-- `skydb.DataType` tags used by the builder. -/
inductive DataType where
  | typeString
  | typeAsset
  | typeReference
  | typeNumber
  | typeInteger
  | typeDateTime
  | typeBoolean
  | typeJSON
  | typeLocation
  | typeSequence
deriving DecidableEq

/-- `skydb.FieldType` (field `Type` is renamed `dataType`, `Type` being a
Lean keyword). -/
structure FieldType where
  dataType : DataType
  expression : Expression

/-- `joinedTable` from builder.go. -/
structure joinedTable where
  secondaryTable : String
  primaryColumn : String
  secondaryColumn : String
deriving DecidableEq

/-- `joinedTable.equal` from builder.go: all three fields must match. -/
def joinedTable.equal (a b : joinedTable) : Bool :=
  a.secondaryTable == b.secondaryTable && a.primaryColumn == b.primaryColumn
    && a.secondaryColumn == b.secondaryColumn

/-- `predicateSqlizerFactory` from builder.go.  The Go struct holds a
`*database`; the two values the builder reads from it (`db.ID()` and
`db.UserRecordType()`) are inlined as string fields (the `database` type
is not among the sources).  The Go map `extraColumns` is an association
list with replace-on-insert semantics. -/
structure predicateSqlizerFactory where
  dbID : String
  dbUserRecordType : String
  primaryTable : String
  joinedTables : List joinedTable
  extraColumns : List (String × FieldType)

/-- `skydb.SortOrder`.  Modelled from the spec (section 3): Asc, Desc,
plus one representative of every other value of the underlying Go type
(reaching the `unknown sort order` branch of `sortOrderOrderBySQL`). -/
inductive SortOrder where
  | asc
  | desc
  | invalid
deriving DecidableEq

/-- `skydb.Sort` (`Sort` itself is a Lean keyword).  Modelled from the
spec (section 3): a key path or a function, plus an order; Go's nil-able
`Func` interface is an `Option`. -/
structure SortSpec where
  keyPath : String
  func : Option Func
  order : SortOrder

/-- The result triple of a Go `ToSql() (sql string, args []interface\x7b\x7d,
err error)` call: `err` is the returned error value (`none` = nil). -/
structure SqlResult where
  sql : String
  args : List Value
  err : Option String

/-- Outcome of a Go call returning `(T, error)`: a value, a returned
non-nil error, or a runtime panic (which in Go unwinds rather than being
returned; keeping the two failure modes distinct matters because callers
only ever test the returned error). -/
inductive GoOutcome (α : Type) where
  | ok (value : α)
  | goError (msg : String)
  | goPanic (msg : String)

/- ## Character and string helpers -/

/-- The double-quote character. -/
def dquote : Char := Char.ofNat 34

/-- The single-quote character. -/
def squote : Char := Char.ofNat 39

/-- The backslash character. -/
def backslash : Char := Char.ofNat 92

/-- The `?` placeholder character. -/
def qmark : Char := '?'

/-- Number of `?` characters in a string (the placeholder count of a SQL
fragment: the builder emits every placeholder as a bare `?`). -/
def countQ (s : String) : Nat := s.data.count qmark

/-- `s` contains no `?` character. -/
def noQuestionMark (s : String) : Bool := !s.data.contains qmark

/-- Decimal digit character. -/
def digitChar (n : Nat) : Char := Char.ofNat (48 + n)

/-- Fuel-driven decimal rendering; with fuel at least the value it renders
the standard decimal numeral, least significant digit last. -/
def natToDecAux (fuel : Nat) (n : Nat) : List Char :=
  match fuel with
  | 0 => [digitChar (n % 10)]
  | f + 1 =>
    if n < 10 then [digitChar n]
    else natToDecAux f (n / 10) ++ [digitChar (n % 10)]

/-- Decimal rendering of a natural number, as Go's `fmt` verb `%d`
produces for the non-negative ints the builder formats. -/
def natToDec (n : Nat) : String := String.mk (natToDecAux n n)

/-- `pq.QuoteIdentifier` body (lib/pq, a dependency, not among the
sources): truncate at the first NUL, double every inner double quote;
the caller wraps the result in double quotes. -/
def quoteIdentChars : List Char → List Char
  | [] => []
  | c :: cs =>
    if c = Char.ofNat 0 then []
    else if c = dquote then dquote :: dquote :: quoteIdentChars cs
    else c :: quoteIdentChars cs

/-- `pq.QuoteIdentifier` from lib/pq: `"` + replaced + `"`. -/
def QuoteIdentifier (name : String) : String :=
  String.mk (dquote :: quoteIdentChars name.data ++ [dquote])

/-- `fullQuoteIdentifier` from builder.go. -/
def fullQuoteIdentifier (aliasName columnName : String) : String :=
  QuoteIdentifier aliasName ++ "." ++ QuoteIdentifier columnName

/-- `strings.Repeat`. -/
def repeatStr (s : String) : Nat → String
  | 0 => ""
  | k + 1 => s ++ repeatStr s k

/-- `sq.Placeholders` from the squirrel dependency (not among the
sources): `count` comma-separated `?` marks, empty for `count < 1`
(`strings.Repeat(",?", count)` with the leading comma dropped). -/
def Placeholders (count : Nat) : String :=
  if count < 1 then "" else "?" ++ repeatStr ",?" (count - 1)

/-- Lower-case hexadecimal digit character (Go's `encoding/json` hex
table). -/
def hexDigitChar (n : Nat) : Char :=
  if n < 10 then Char.ofNat (48 + n) else Char.ofNat (87 + n)

/-- Four lower-case hex digits of `n` (for `\uXXXX` escapes). -/
def hex4 (n : Nat) : List Char :=
  [hexDigitChar (n / 4096 % 16), hexDigitChar (n / 256 % 16),
   hexDigitChar (n / 16 % 16), hexDigitChar (n % 16)]

/-- Escaping of one character by Go's `encoding/json` string encoder
(HTML escaping on, as under plain `json.Marshal`): `"` and `\` get a
backslash, newline, carriage return and tab their short escapes, other
control characters and `<`, `>`, `&`, U+2028, U+2029 a `\u` escape;
every other character - in particular the single quote - is passed
through unchanged. -/
def jsonEscapeChar (c : Char) : List Char :=
  if c = dquote then [backslash, dquote]
  else if c = backslash then [backslash, backslash]
  else if c = Char.ofNat 10 then [backslash, 'n']
  else if c = Char.ofNat 13 then [backslash, 'r']
  else if c = Char.ofNat 9 then [backslash, 't']
  else if c = '<' ∨ c = '>' ∨ c = '&' ∨ c.toNat < 32 ∨ c.toNat = 8232 ∨ c.toNat = 8233 then
    backslash :: 'u' :: hex4 c.toNat
  else [c]

/-- `json.Marshal` applied to a Go string (always succeeds for strings):
the escaped text wrapped in double quotes. -/
def jsonMarshalString (s : String) : String :=
  String.mk (dquote :: (s.data.map jsonEscapeChar).flatten ++ [dquote])

/-- Zero-padding to six digits (the fractional part of `%f`). -/
def padZeros6 (m : Nat) : String :=
  String.mk (List.replicate (6 - (natToDecAux m m).length) (digitChar 0)) ++ natToDec m

/-- Fixed six-decimal rendering of the non-negative rational `n / d`,
rounded half up. -/
def formatFixed6Frac (n d : Nat) : String :=
  let scaled := (2 * n * 1000000 + d) / (2 * d)
  natToDec (scaled / 1000000) ++ "." ++ padZeros6 (scaled % 1000000)

/-- Go's `fmt` verb `%f` (fixed notation, six decimals) on a coordinate.
The Go value is a float64; the model renders the exact rational with the
same fixed six-decimal layout. -/
def formatFixed6 (q : Rat) : String :=
  if q.num < 0 then "-" ++ formatFixed6Frac (-q.num).toNat q.den
  else formatFixed6Frac q.num.toNat q.den

/- ## Literal, function and expression compilation (builder.go 412-482) -/

/-- `literalToSQLValue` from builder.go: a `skydb.Reference` is unwrapped
to its record key; every other value passes through. -/
def literalToSQLValue : Value → Value
  | .ref key => .str key
  | v => v

/-- `literalToSQLOperand` from builder.go: a non-empty array becomes a
parenthesized placeholder list with one bound value per element, an empty
array becomes the literal text `(NULL)` with no bound values, and any
other value becomes one placeholder with one bound value. -/
def literalToSQLOperand : Value → String × List Value
  | .arr elems =>
    if elems.length > 0 then
      ("(" ++ Placeholders elems.length ++ ")", elems.map literalToSQLValue)
    else
      ("(NULL)", [])
  | v => (Placeholders 1, [literalToSQLValue v])

/-- `funcToSQLOperand` from builder.go.  The Go messages interpolate the
dynamic type with `%T`; the model keeps the fixed text.  The default
branch is a Go panic. -/
def funcToSQLOperand (aliasName : String) (fn : Func) : Except String (String × List Value) :=
  match fn with
  | .distance field location =>
    .ok ("ST_Distance_Sphere(" ++ fullQuoteIdentifier aliasName field ++ ", ST_MakePoint(?, ?))",
      [.num location.lng, .num location.lat])
  | .count overallRecords =>
    .ok (if overallRecords then "COUNT(*) OVER()" else "COUNT(*)", [])
  | .userData dataName =>
    .ok ("_user." ++ dataName, [])
  | _ => .error "got unrecgonized skydb.Func"

/-- `expressionSqlizer.ToSql` from builder.go.  The `Except` error is a
propagated panic; the Go error return of this method is always nil, hence
`err := none` in every returned result. -/
def expressionSqlizerToSql (aliasName : String) (e : Expression) : Except String SqlResult :=
  match e with
  | .keyPath s => .ok { sql := fullQuoteIdentifier aliasName s, args := [], err := none }
  | .function fn =>
    match funcToSQLOperand aliasName fn with
    | .error m => .error m
    | .ok (sql, args) => .ok { sql := sql, args := args, err := none }
  | .literal v =>
    .ok { sql := (literalToSQLOperand v).1, args := (literalToSQLOperand v).2, err := none }

/- ## The sqlizer tree (the `sq.Sqlizer` values builder.go constructs) -/

/-- The closed set of `sq.Sqlizer` implementations reachable from
`newPredicateSqlizer`: squirrel's `sq.And` / `sq.Or` conjunctions,
`NotSqlizer`, `containsComparisonPredicateSqlizer`,
`comparisonPredicateSqlizer`, `expressionSqlizer` and
`userRelationPredicateSqlizer` (each carrying the same fields as the Go
struct of that name). -/
inductive Sqlizer where
  | and (children : List Sqlizer)
  | or (children : List Sqlizer)
  | notSqlizer (child : Sqlizer)
  | contains (aliasName : String) (p : Predicate)
  | comparison (aliasName : String) (p : Predicate)
  | expression (aliasName : String) (e : Expression)
  | userRelation (outwardAlias inwardAlias user : String)

/-- The binary-operator text written by `comparisonPredicateSqlizer.ToSql`
(builder.go 375-395); `none` for a non-binary operator (the switch
default that sets the `not supported` error). -/
def comparisonOperatorSQL : Operator → Option String
  | .equal => some "="
  | .greaterThan => some ">"
  | .lessThan => some "<"
  | .greaterThanOrEqual => some ">="
  | .lessThanOrEqual => some "<="
  | .notEqual => some "<>"
  | .like => some " LIKE "
  | .ilike => some " ILIKE "
  | _ => none

/-- `comparisonPredicateSqlizer.ToSql` from builder.go (356-410): compile
the left expression, write the operator, compile the right expression.
An error from either operand is returned as `("", nil, err)`; the
unsupported-operator error returns the empty sql with the args gathered
so far, exactly as the Go code does. -/
def comparisonToSql (aliasName : String) (p : Predicate) : Except String SqlResult :=
  match p with
  | .exprChild _ => .error "interface conversion: sqlizer does not hold a Predicate"
  | .node op cs =>
    if op.IsBinary then
      match cs with
      | c0 :: c1 :: _ =>
        match c0, c1 with
        | .exprChild l, .exprChild r =>
          match expressionSqlizerToSql aliasName l with
          | .error m => .error m
          | .ok rl =>
            if rl.err.isSome then .ok { sql := "", args := [], err := rl.err }
            else
              match comparisonOperatorSQL op with
              | none =>
                .ok { sql := "", args := rl.args, err := some "Comparison operator is not supported." }
              | some opText =>
                match expressionSqlizerToSql aliasName r with
                | .error m => .error m
                | .ok rr =>
                  if rr.err.isSome then .ok { sql := "", args := [], err := rr.err }
                  else .ok { sql := rl.sql ++ opText ++ rr.sql, args := rl.args ++ rr.args, err := none }
        | _, _ => .error "interface conversion: child is not an Expression"
      | _ => .error "index out of range"
    else .ok { sql := "", args := [], err := some "Comparison operator is not supported." }

/-- `containsComparisonPredicateSqlizer.ToSql` from builder.go (299-354):
`jsonb_exists(keypath, literal)` for a \x7bLiteral, KeyPath\x7d pair,
`keypath IN literal-list` for a \x7bKeyPath, Literal\x7d pair, and a panic
(`malformed query`) for any other pairing. -/
def containsToSql (aliasName : String) (p : Predicate) : Except String SqlResult :=
  match p with
  | .exprChild _ => .error "interface conversion: sqlizer does not hold a Predicate"
  | .node _ cs =>
    match cs with
    | c0 :: c1 :: _ =>
      match c0, c1 with
      | .exprChild l, .exprChild r =>
        match l, r with
        | .literal lv, .keyPath rk =>
          match expressionSqlizerToSql aliasName (.keyPath rk) with
          | .error m => .error m
          | .ok rr =>
            if rr.err.isSome then .ok { sql := "", args := [], err := rr.err }
            else
              match expressionSqlizerToSql aliasName (.literal lv) with
              | .error m => .error m
              | .ok rl =>
                if rl.err.isSome then .ok { sql := "", args := [], err := rl.err }
                else
                  .ok { sql := "jsonb_exists(" ++ rr.sql ++ ", " ++ rl.sql ++ ")",
                        args := rr.args ++ rl.args, err := none }
        | .keyPath lk, .literal rv =>
          match expressionSqlizerToSql aliasName (.keyPath lk) with
          | .error m => .error m
          | .ok rl =>
            if rl.err.isSome then .ok { sql := "", args := [], err := rl.err }
            else
              match expressionSqlizerToSql aliasName (.literal rv) with
              | .error m => .error m
              | .ok rr =>
                if rr.err.isSome then .ok { sql := "", args := [], err := rr.err }
                else
                  .ok { sql := rl.sql ++ " IN " ++ rr.sql, args := rl.args ++ rr.args, err := none }
        | _, _ => .error "malformed query"
      | _, _ => .error "interface conversion: child is not an Expression"
    | _ => .error "index out of range"

/-- `userRelationPredicateSqlizer.ToSql` from builder.go (273-297). -/
def userRelationToSql (outwardAlias inwardAlias user : String) : Except String SqlResult :=
  if outwardAlias ≠ "" ∧ inwardAlias ≠ "" then
    .ok { sql := fullQuoteIdentifier outwardAlias "left_id" ++ " = "
            ++ fullQuoteIdentifier inwardAlias "right_id" ++ " AND "
            ++ fullQuoteIdentifier outwardAlias "left_id" ++ " = ?",
          args := [.str user], err := none }
  else if outwardAlias ≠ "" then
    .ok { sql := fullQuoteIdentifier outwardAlias "left_id" ++ " = ?",
          args := [.str user], err := none }
  else if inwardAlias ≠ "" then
    .ok { sql := fullQuoteIdentifier inwardAlias "right_id" ++ " = ?",
          args := [.str user], err := none }
  else .error "unexpected value in sqlizer"

mutual

/-- `ToSql` over the sqlizer tree.  `NotSqlizer.ToSql` (builder.go
568-574) is rendered exactly as written: it wraps the child fragment in
`NOT (...)` only when the child reported a non-nil error, and returns the
child fragment untouched when the child succeeded. -/
def toSql : Sqlizer → Except String SqlResult
  | .and cs => conjJoin cs " AND "
  | .or cs => conjJoin cs " OR "
  | .notSqlizer s =>
    match toSql s with
    | .error m => .error m
    | .ok r =>
      if r.err.isSome then .ok { sql := "NOT (" ++ r.sql ++ ")", args := r.args, err := r.err }
      else .ok r
  | .contains a p => containsToSql a p
  | .comparison a p => comparisonToSql a p
  | .expression a e => expressionSqlizerToSql a e
  | .userRelation o i u => userRelationToSql o i u

/-- `conj.join` of the squirrel dependency (not among the sources), the
`ToSql` of `sq.And` / `sq.Or`: each part with a nil error and a non-empty
fragment is parenthesized and the parts are joined with the separator,
args concatenated in order; the first part error is returned as
`("", nil, err)`. -/
def conjJoin (cs : List Sqlizer) (sep : String) : Except String SqlResult :=
  match cs with
  | [] => .ok { sql := "", args := [], err := none }
  | s :: rest =>
    match toSql s with
    | .error m => .error m
    | .ok r =>
      if r.err.isSome then .ok { sql := "", args := [], err := r.err }
      else
        match conjJoin rest sep with
        | .error m => .error m
        | .ok r2 =>
          if r2.err.isSome then .ok { sql := "", args := [], err := r2.err }
          else if r.sql = "" then .ok r2
          else if r2.sql = "" then .ok { sql := "(" ++ r.sql ++ ")", args := r.args, err := none }
          else .ok { sql := "(" ++ r.sql ++ ")" ++ sep ++ r2.sql,
                     args := r.args ++ r2.args, err := none }

end

/- ## Join/alias manager and factory state (builder.go 160-223) -/

/-- The scan loop of `createLeftJoin`: index of the first entry equal to
`t` (Go `for i, alias := range f.joinedTables`). -/
def findEqualIdx (jts : List joinedTable) (t : joinedTable) : Option Nat :=
  match jts with
  | [] => none
  | a :: rest => if a.equal t then some 0 else (findEqualIdx rest t).map (· + 1)

/-- `aliasName` from builder.go: the `_user` table always gets the fixed
alias `_user`; every other table gets `_t<index>`. -/
def aliasName (secondaryTable : String) (indexInJoinedTables : Nat) : String :=
  if secondaryTable = "_user" then "_user"
  else "_t" ++ natToDec indexInJoinedTables

/-- `createLeftJoin` from builder.go: return the alias of the first equal
existing join spec, or append the new spec and return the alias at its
(last) position. -/
def createLeftJoin (f : predicateSqlizerFactory)
    (secondaryTable primaryColumn secondaryColumn : String) :
    String × predicateSqlizerFactory :=
  let newAlias : joinedTable := ⟨secondaryTable, primaryColumn, secondaryColumn⟩
  match findEqualIdx f.joinedTables newAlias with
  | some i => (aliasName secondaryTable i, f)
  | none =>
    let jts := f.joinedTables ++ [newAlias]
    (aliasName secondaryTable (jts.length - 1), { f with joinedTables := jts })

/-- Go map assignment `m[k] = v` on the association-list model. -/
def insertOrReplace : List (String × FieldType) → String → FieldType → List (String × FieldType)
  | [], k, v => [(k, v)]
  | (k0, v0) :: rest, k, v =>
    if k0 = k then (k, v) :: rest else (k0, v0) :: insertOrReplace rest k v

/-- `addExtraColumn` from builder.go (the nil-map initialization is a
no-op on the list model). -/
def addExtraColumn (f : predicateSqlizerFactory) (key : String)
    (fieldType : DataType) (expr : Expression) : predicateSqlizerFactory :=
  { f with extraColumns := insertOrReplace f.extraColumns key ⟨fieldType, expr⟩ }

/-- `newPredicateSqlizerFactory` from builder.go. -/
def newPredicateSqlizerFactory (dbID dbUserRecordType primaryTable : String) :
    predicateSqlizerFactory :=
  { dbID := dbID, dbUserRecordType := dbUserRecordType, primaryTable := primaryTable,
    joinedTables := [], extraColumns := [] }

/- ## Functional predicate translators (builder.go 74-150) -/

/-- `UserDiscoverFunc.ArgsByName`.  Modelled from the spec: the `skydb`
package is not among the sources; the spec (section 3) describes
`UserDiscoverFunc` as args-by-name, so the lookup returns the value
stored under the name (Go's zero value, nil, when absent). -/
def userDiscoverArgsByName (args : List (String × Value)) (nm : String) : Value :=
  (args.lookup nm).getD .null

/-- `newUserRelationFunctionalPredicateSqlizer` from builder.go (89-113);
the factory is returned alongside the outcome because the Go method
mutates it through the receiver pointer. -/
def newUserRelationFunctionalPredicateSqlizer (f : predicateSqlizerFactory)
    (relationName relationDirection keyPath user : String) :
    GoOutcome Sqlizer × predicateSqlizerFactory :=
  let table := relationName
  let direction := if relationDirection = "" then "outward" else relationDirection
  let primaryColumn := if keyPath = "_owner" ∨ keyPath = "" then "_owner_id" else keyPath
  let outPair :=
    if direction = "outward" ∨ direction = "mutual" then
      createLeftJoin f table primaryColumn "right_id"
    else ("", f)
  let inPair :=
    if direction = "inward" ∨ direction = "mutual" then
      createLeftJoin outPair.2 table primaryColumn "left_id"
    else ("", outPair.2)
  (.ok (.userRelation outPair.1 inPair.1 user), inPair.2)

/-- `newUserDiscoverFunctionalPredicateSqlizer` from builder.go (115-150):
fails (with the `InvalidContext` error of spec section 4.4) unless the
primary table is the user record table; otherwise joins `_user` on
`(_id, id)`, builds the email set-membership sqlizer and registers the
two transient columns. -/
def newUserDiscoverFunctionalPredicateSqlizer (f : predicateSqlizerFactory)
    (args : List (String × Value)) : GoOutcome Sqlizer × predicateSqlizerFactory :=
  if f.dbUserRecordType ≠ f.primaryTable then
    (.goError "user discover predicate can only be used on user record", f)
  else
    let joined := createLeftJoin f "_user" "_id" "id"
    let s : Sqlizer := .contains joined.1
      (.node .inOp [.exprChild (.keyPath "email"),
                    .exprChild (.literal (userDiscoverArgsByName args "email"))])
    let f2 := addExtraColumn joined.2 "_transient__email" .typeString (.function (.userData "email"))
    let f3 := addExtraColumn f2 "_transient__username" .typeString (.function (.userData "username"))
    (.ok s, f3)

/-- `newFunctionalPredicateSqlizer` from builder.go (74-87): cast the
first child to an Expression, require a Function expression, dispatch on
the concrete function type; everything else panics. -/
def newFunctionalPredicateSqlizer (f : predicateSqlizerFactory) (children : List Predicate) :
    GoOutcome Sqlizer × predicateSqlizerFactory :=
  match children with
  | [] => (.goPanic "index out of range", f)
  | c :: _ =>
    match c with
    | .node _ _ => (.goPanic "interface conversion: child is not an Expression", f)
    | .exprChild e =>
      match e with
      | .function fn =>
        match fn with
        | .userRelation rn rd kp u => newUserRelationFunctionalPredicateSqlizer f rn rd kp u
        | .userDiscover args => newUserDiscoverFunctionalPredicateSqlizer f args
        | _ => (.goPanic "the specified function cannot be used as a functional predicate", f)
      | _ => (.goPanic "unexpected expression in functional predicate", f)

/- ## The predicate compiler (builder.go 22-72) -/

mutual

/-- `newPredicateSqlizer` from builder.go, with the body of
`newCompoundPredicateSqlizer` (builder.go 39-72) inlined at its single
call site (in Go the compound case is a separate method on the same
factory; Lean's termination checker needs the recursion to stay within
one definition group).  The Go error message for an unsupported compound
operator interpolates the operator with `%v`; the model keeps fixed
text. -/
def newPredicateSqlizer (f : predicateSqlizerFactory) (p : Predicate) :
    GoOutcome Sqlizer × predicateSqlizerFactory :=
  match p with
  | .exprChild _ => (.goPanic "interface conversion: child is not a Predicate", f)
  | .node op children =>
    if (Predicate.node op children).IsEmpty then
      (.goPanic "no sqlizer can be created from an empty predicate", f)
    else if op = .functional then
      newFunctionalPredicateSqlizer f children
    else if op.IsCompound then
      match op with
      | .and =>
        match compileChildList f children with
        | (.ok ss, f2) => (.ok (.and ss), f2)
        | (.goError m, f2) => (.goError m, f2)
        | (.goPanic m, f2) => (.goPanic m, f2)
      | .or =>
        match compileChildList f children with
        | (.ok ss, f2) => (.ok (.or ss), f2)
        | (.goError m, f2) => (.goError m, f2)
        | (.goPanic m, f2) => (.goPanic m, f2)
      | .not =>
        match children with
        | [] => (.goPanic "index out of range", f)
        | c :: _ =>
          match newPredicateSqlizer f c with
          | (.ok s, f2) => (.ok (.notSqlizer s), f2)
          | (.goError m, f2) => (.goError m, f2)
          | (.goPanic m, f2) => (.goPanic m, f2)
      | _ => (.goError "Compound operator is not supported.", f)
    else if op = .inOp then
      (.ok (.contains f.primaryTable (.node op children)), f)
    else
      (.ok (.comparison f.primaryTable (.node op children)), f)

/-- The child loops of the And/Or cases of
`newCompoundPredicateSqlizer`: compile each child in order, threading the
factory, stopping at the first failure. -/
def compileChildList (f : predicateSqlizerFactory) (cs : List Predicate) :
    GoOutcome (List Sqlizer) × predicateSqlizerFactory :=
  match cs with
  | [] => (.ok [], f)
  | c :: rest =>
    match newPredicateSqlizer f c with
    | (.ok s, f1) =>
      match compileChildList f1 rest with
      | (.ok ss, f2) => (.ok (s :: ss), f2)
      | (.goError m, f2) => (.goError m, f2)
      | (.goPanic m, f2) => (.goPanic m, f2)
    | (.goError m, f1) => (.goError m, f1)
    | (.goPanic m, f1) => (.goPanic m, f1)

end

/- ## Access control predicate (builder.go 152-158, 225-271) -/

/-- `accessPredicateSqlizer` from builder.go. -/
structure accessPredicateSqlizer where
  databaseID : String
  user : UserInfo
  level : ACLLevel

/-- `newAccessControlSqlizer` from builder.go (always returns a nil
error). -/
def newAccessControlSqlizer (f : predicateSqlizerFactory) (user : UserInfo)
    (aclLevel : ACLLevel) : accessPredicateSqlizer × Option String :=
  (⟨f.dbID, user, aclLevel⟩, none)

/-- The role loop of `accessPredicateSqlizer.ToSql`: one
`_access @> '[\x7b"role":<json role>\x7d]' OR ` piece per role, in order. -/
def rolesFragment : List String → String
  | [] => ""
  | role :: rest =>
    "_access @> \x27[\x7b\"role\":" ++ jsonMarshalString role ++ "\x7d]\x27 OR "
      ++ rolesFragment rest

/-- `accessPredicateSqlizer.ToSql` from builder.go (242-271), exactly as
written: the `databaseID == ""` branch only assigns the zero value to
`sql` and does not return, so it has no effect on the result; when the
user id is non-empty the full fragment is built with the JSON-escaped
role names and user id spliced into the SQL text and the user id bound as
the single argument; the returned error is always nil (the marshal error
checked inside the loop is shadowed, the later check reads the still-nil
named return, and `json.Marshal` cannot fail on a string anyway). -/
def accessToSql (p : accessPredicateSqlizer) : SqlResult :=
  if p.user.ID ≠ "" then
    { sql := "(" ++ rolesFragment p.user.Roles
        ++ "_access @> \x27[\x7b\"user_id\":" ++ jsonMarshalString p.user.ID
        ++ "\x7d]\x27 OR _access IS NULL OR _owner_id = ?)",
      args := [.str p.user.ID], err := none }
  else
    { sql := "", args := [], err := none }

/- ## Sort compilation (builder.go 484-533) -/

/-- `sortOrderOrderBySQL` from builder.go. -/
def sortOrderOrderBySQL : SortOrder → Except String String
  | .asc => .ok "ASC"
  | .desc => .ok "DESC"
  | .invalid => .error "unknown sort order"

/-- `funcOrderBySQL` from builder.go (509-522): the distance function is
rendered with the longitude and latitude formatted straight into the SQL
text with `%f`; no bind arguments exist in this path (the Go function
returns only a string). -/
def funcOrderBySQL (aliasName : String) (fn : Func) : Except String String :=
  match fn with
  | .distance field location =>
    .ok ("ST_Distance_Sphere(" ++ fullQuoteIdentifier aliasName field
      ++ ", ST_MakePoint(" ++ formatFixed6 location.lng ++ ", "
      ++ formatFixed6 location.lat ++ "))")
  | _ => .error "got unrecgonized skydb.Func"

/-- `sortOrderBySQL` from builder.go (484-506). -/
def sortOrderBySQL (aliasName : String) (sort : SortSpec) : Except String String :=
  if sort.keyPath ≠ "" then
    match sortOrderOrderBySQL sort.order with
    | .error m => .error m
    | .ok ord => .ok (fullQuoteIdentifier aliasName sort.keyPath ++ " " ++ ord)
  else
    match sort.func with
    | some fn =>
      match funcOrderBySQL aliasName fn with
      | .error m => .error m
      | .ok expr =>
        match sortOrderOrderBySQL sort.order with
        | .error m => .error m
        | .ok ord => .ok (expr ++ " " ++ ord)
    | none => .error "invalid Sort: specify either KeyPath or Func"

/- ## Counting lemmas for `?` placeholders -/

theorem countQ_append (a b : String) : countQ (a ++ b) = countQ a + countQ b := by
  simp [countQ, String.data_append, List.count_append]

theorem countQ_eq_zero {s : String} : countQ s = 0 ↔ qmark ∉ s.data := by
  simp [countQ, List.count_eq_zero]

theorem noQuestionMark_iff {s : String} : noQuestionMark s = true ↔ qmark ∉ s.data := by
  simp [noQuestionMark, List.contains]

theorem countQ_of_noQuestionMark {s : String} (h : noQuestionMark s = true) : countQ s = 0 :=
  countQ_eq_zero.mpr (noQuestionMark_iff.mp h)

theorem quoteIdentChars_count_qmark {cs : List Char} (h : qmark ∉ cs) :
    (quoteIdentChars cs).count qmark = 0 := by
  induction cs with
  | nil => simp [quoteIdentChars]
  | cons c rest ih =>
    simp only [List.mem_cons, not_or] at h
    obtain ⟨h1, h2⟩ := h
    have hcr := ih h2
    unfold quoteIdentChars
    by_cases hc0 : c = Char.ofNat 0
    · simp [hc0]
    · by_cases hdq : c = dquote
      · have hdqq : (dquote == qmark) = false := by decide
        have hd0 : ¬dquote = Char.ofNat 0 := by decide
        simp [hc0, hdq, hd0, List.count_cons, hdqq, hcr]
      · have hcq : (c == qmark) = false :=
          beq_eq_false_iff_ne.mpr (fun hh => h1 hh.symm)
        simp [hc0, hdq, List.count_cons, hcq, hcr]

theorem countQ_QuoteIdentifier {s : String} (h : noQuestionMark s = true) :
    countQ (QuoteIdentifier s) = 0 := by
  have hmem := noQuestionMark_iff.mp h
  have h1 := quoteIdentChars_count_qmark hmem
  have h2 : (dquote == qmark) = false := by decide
  simp [QuoteIdentifier, countQ, List.count_cons, List.count_append, h1, h2]

theorem countQ_fullQuoteIdentifier {a b : String} (ha : noQuestionMark a = true)
    (hb : noQuestionMark b = true) : countQ (fullQuoteIdentifier a b) = 0 := by
  rw [fullQuoteIdentifier, countQ_append, countQ_append,
    countQ_QuoteIdentifier ha, countQ_QuoteIdentifier hb]
  have h3 : countQ "." = 0 := by decide
  omega

theorem countQ_repeatStr_commaQ (k : Nat) : countQ (repeatStr ",?" k) = k := by
  induction k with
  | zero => decide
  | succ k ih =>
    rw [repeatStr, countQ_append, ih]
    have h1 : countQ ",?" = 1 := by decide
    omega

theorem countQ_Placeholders (n : Nat) : countQ (Placeholders n) = n := by
  match n with
  | 0 => decide
  | k + 1 =>
    rw [Placeholders]
    simp only [Nat.lt_irrefl, Nat.not_lt, if_neg (by omega : ¬ k + 1 < 1)]
    rw [countQ_append, Nat.add_sub_cancel, countQ_repeatStr_commaQ]
    have h1 : countQ "?" = 1 := by decide
    omega

theorem literalToSQLOperand_aligned (v : Value) :
    countQ (literalToSQLOperand v).1 = (literalToSQLOperand v).2.length := by
  match v with
  | .arr elems =>
    by_cases h : elems.length > 0
    · simp only [literalToSQLOperand, h, if_true]
      rw [countQ_append, countQ_append, countQ_Placeholders]
      have e1 : countQ "(" = 0 := by decide
      have e2 : countQ ")" = 0 := by decide
      simp [e1, e2]
    · simp only [literalToSQLOperand, h, if_false]
      decide
  | .str s => rfl
  | .num q => rfl
  | .boolean b => rfl
  | .ref key => rfl
  | .null => rfl

/- ## Decimal rendering lemmas -/

theorem digitChar_ne_qmark {m : Nat} (h : m < 10) : digitChar m ≠ qmark := by
  interval_cases m <;> decide

theorem natToDecAux_count_qmark (fuel n : Nat) : (natToDecAux fuel n).count qmark = 0 := by
  induction fuel generalizing n with
  | zero =>
    simp [natToDecAux, List.count_cons,
      digitChar_ne_qmark (Nat.mod_lt n (by decide) : n % 10 < 10)]
  | succ f ih =>
    rw [natToDecAux]
    by_cases h : n < 10
    · simp [h, List.count_cons, digitChar_ne_qmark h]
    · simp [h, List.count_append, List.count_cons, ih,
        digitChar_ne_qmark (Nat.mod_lt n (by decide) : n % 10 < 10)]

theorem countQ_natToDec (n : Nat) : countQ (natToDec n) = 0 := by
  simp [natToDec, countQ, natToDecAux_count_qmark]

/-- Left-to-right decimal evaluation, the inverse of `natToDecAux`. -/
def decVal (cs : List Char) : Nat :=
  cs.foldl (fun acc c => acc * 10 + (c.toNat - 48)) 0

theorem decVal_append_digit (xs : List Char) (c : Char) :
    decVal (xs ++ [c]) = decVal xs * 10 + (c.toNat - 48) := by
  simp [decVal, List.foldl_append]

theorem decVal_digitChar {m : Nat} (h : m < 10) : decVal [digitChar m] = m := by
  interval_cases m <;> decide

theorem toNat_digitChar {m : Nat} (h : m < 10) : (digitChar m).toNat - 48 = m := by
  interval_cases m <;> decide

theorem decVal_natToDecAux : ∀ fuel n, n ≤ fuel ∨ n < 10 → decVal (natToDecAux fuel n) = n := by
  intro fuel
  induction fuel with
  | zero =>
    intro n h
    have hn : n < 10 := by omega
    have : n % 10 = n := Nat.mod_eq_of_lt hn
    simp [natToDecAux, this, decVal_digitChar hn]
  | succ f ih =>
    intro n h
    rw [natToDecAux]
    by_cases hn : n < 10
    · simp [hn, decVal_digitChar hn]
    · have hle : n ≤ f + 1 := by omega
      have hdiv : n / 10 ≤ f := by
        have := Nat.div_lt_self (by omega : 0 < n) (by decide : 1 < 10)
        omega
      simp only [hn, if_false]
      rw [decVal_append_digit, ih (n / 10) (Or.inl hdiv),
        toNat_digitChar (Nat.mod_lt n (by decide))]
      omega

theorem natToDec_inj {a b : Nat} (h : natToDec a = natToDec b) : a = b := by
  have ha : decVal (natToDecAux a a) = a := decVal_natToDecAux a a (Or.inl le_rfl)
  have hb : decVal (natToDecAux b b) = b := decVal_natToDecAux b b (Or.inl le_rfl)
  have : (natToDec a).data = (natToDec b).data := by rw [h]
  simp only [natToDec] at this
  rw [← ha, ← hb, this]

/- ## Supported predicate trees (the scope of the placeholder claim) -/

/-- Expressions legal at comparison leaves: key paths, literals, and the
function kinds `funcToSQLOperand` compiles (spec section 4.5); the two
relation/discovery functions are contract violations inside a general
expression and excluded. -/
def supportedExpr : Expression → Bool
  | .keyPath _ => true
  | .literal _ => true
  | .function (.distance _ _) => true
  | .function (.count _) => true
  | .function (.userData _) => true
  | .function _ => false

mutual

/-- A non-empty predicate tree built solely from the supported operators,
in the shapes the spec describes: And/Or over non-empty child predicate
lists, Not over exactly one child predicate, the eight binary comparisons
over two expressions, and In over a \x7bKeyPath, Literal\x7d or
\x7bLiteral, KeyPath\x7d pair. -/
def supportedOps : Predicate → Bool
  | .exprChild _ => false
  | .node op cs =>
    match op with
    | .and => !cs.isEmpty && supportedOpsList cs
    | .or => !cs.isEmpty && supportedOpsList cs
    | .not =>
      match cs with
      | [c] => supportedOps c
      | _ => false
    | .inOp =>
      match cs with
      | [.exprChild (.keyPath _), .exprChild (.literal _)] => true
      | [.exprChild (.literal _), .exprChild (.keyPath _)] => true
      | _ => false
    | .functional => false
    | _ =>
      match cs with
      | [.exprChild l, .exprChild r] => supportedExpr l && supportedExpr r
      | _ => false

def supportedOpsList : List Predicate → Bool
  | [] => true
  | c :: rest => supportedOps c && supportedOpsList rest

end

/-- No `?` character occurs in the identifiers a single expression
splices into the SQL text (the key path, the distance field, or the
user-data column name); literal values are always bound, never spliced,
so they are unrestricted. -/
def cleanExprIdents : Expression → Bool
  | .keyPath s => noQuestionMark s
  | .literal _ => true
  | .function (.distance field _) => noQuestionMark field
  | .function (.userData n) => noQuestionMark n
  | .function _ => true

mutual

/-- No `?` character occurs in any identifier the tree splices into the
SQL text. -/
def cleanIdents : Predicate → Bool
  | .exprChild e => cleanExprIdents e
  | .node _ cs => cleanIdentsList cs

def cleanIdentsList : List Predicate → Bool
  | [] => true
  | c :: rest => cleanIdents c && cleanIdentsList rest

end

mutual

/-- Structural size of a predicate tree (measure for the compilation
induction). -/
def Predicate.size : Predicate → Nat
  | .node _ cs => 1 + Predicate.sizeList cs
  | .exprChild _ => 1

def Predicate.sizeList : List Predicate → Nat
  | [] => 0
  | c :: cs => Predicate.size c + Predicate.sizeList cs

end

theorem Predicate.size_pos (p : Predicate) : 1 ≤ p.size := by
  match p with
  | .node _ cs => simp [Predicate.size]
  | .exprChild _ => simp [Predicate.size]

/- ## Alignment of single sqlizers -/

theorem expressionSqlizerToSql_aligned {a : String} {e : Expression}
    (hA : noQuestionMark a = true) (hS : supportedExpr e = true)
    (hC : cleanExprIdents e = true) :
    ∃ r, expressionSqlizerToSql a e = .ok r ∧ r.err = none ∧
      countQ r.sql = r.args.length := by
  match e with
  | .keyPath s =>
    refine ⟨_, rfl, rfl, ?_⟩
    simp only [List.length_nil]
    exact countQ_fullQuoteIdentifier hA (by simpa [cleanExprIdents] using hC)
  | .literal v =>
    exact ⟨_, rfl, rfl, literalToSQLOperand_aligned v⟩
  | .function (.distance field loc) =>
    refine ⟨_, rfl, rfl, ?_⟩
    simp only [List.length_cons, List.length_nil]
    rw [countQ_append, countQ_append,
      countQ_fullQuoteIdentifier hA (by simpa [cleanExprIdents] using hC)]
    have e1 : countQ "ST_Distance_Sphere(" = 0 := by decide
    have e2 : countQ ", ST_MakePoint(?, ?))" = 2 := by decide
    omega
  | .function (.count b) =>
    refine ⟨_, rfl, rfl, ?_⟩
    match b with
    | true => decide
    | false => decide
  | .function (.userData n) =>
    refine ⟨_, rfl, rfl, ?_⟩
    simp only [List.length_nil]
    rw [countQ_append]
    have e1 : countQ "_user." = 0 := by decide
    have e2 : countQ n = 0 := countQ_of_noQuestionMark (by simpa [cleanExprIdents] using hC)
    omega
  | .function (.userRelation _ _ _ _) => simp [supportedExpr] at hS
  | .function (.userDiscover _) => simp [supportedExpr] at hS

theorem comparisonOperatorSQL_of_isBinary {op : Operator} (h : op.IsBinary = true) :
    ∃ t, comparisonOperatorSQL op = some t ∧ countQ t = 0 := by
  match op with
  | .equal => exact ⟨_, rfl, by decide⟩
  | .greaterThan => exact ⟨_, rfl, by decide⟩
  | .lessThan => exact ⟨_, rfl, by decide⟩
  | .greaterThanOrEqual => exact ⟨_, rfl, by decide⟩
  | .lessThanOrEqual => exact ⟨_, rfl, by decide⟩
  | .notEqual => exact ⟨_, rfl, by decide⟩
  | .like => exact ⟨_, rfl, by decide⟩
  | .ilike => exact ⟨_, rfl, by decide⟩
  | .and => simp [Operator.IsBinary] at h
  | .or => simp [Operator.IsBinary] at h
  | .not => simp [Operator.IsBinary] at h
  | .inOp => simp [Operator.IsBinary] at h
  | .functional => simp [Operator.IsBinary] at h

theorem comparisonToSql_aligned {a : String} {op : Operator} {l r : Expression}
    (hA : noQuestionMark a = true) (hop : op.IsBinary = true)
    (hSl : supportedExpr l = true) (hCl : cleanExprIdents l = true)
    (hSr : supportedExpr r = true) (hCr : cleanExprIdents r = true) :
    ∃ res, comparisonToSql a (.node op [.exprChild l, .exprChild r]) = .ok res ∧
      res.err = none ∧ countQ res.sql = res.args.length := by
  obtain ⟨rl, hrl, hrlerr, hrlc⟩ := expressionSqlizerToSql_aligned hA hSl hCl
  obtain ⟨rr, hrr, hrrerr, hrrc⟩ := expressionSqlizerToSql_aligned hA hSr hCr
  obtain ⟨t, ht, htc⟩ := comparisonOperatorSQL_of_isBinary hop
  refine ⟨⟨rl.sql ++ t ++ rr.sql, rl.args ++ rr.args, none⟩, ?_, rfl, ?_⟩
  · simp only [comparisonToSql, hop, if_true, hrl, hrlerr, Option.isSome_none,
      Bool.false_eq_true, if_false, ht, hrr, hrrerr]
  · simp only [List.length_append]
    rw [countQ_append, countQ_append, hrlc, htc, hrrc]
    omega

theorem containsToSql_aligned_keyPathLit (a : String) (op : Operator) (k : String)
    (v : Value) (hA : noQuestionMark a = true) (hk : noQuestionMark k = true) :
    ∃ res, containsToSql a (.node op [.exprChild (.keyPath k), .exprChild (.literal v)]) =
        .ok res ∧ res.err = none ∧ countQ res.sql = res.args.length := by
  refine ⟨⟨fullQuoteIdentifier a k ++ " IN " ++ (literalToSQLOperand v).1,
    [] ++ (literalToSQLOperand v).2, none⟩, ?_, rfl, ?_⟩
  · simp only [containsToSql, expressionSqlizerToSql, Option.isSome_none,
      Bool.false_eq_true, if_false]
  · simp only [List.nil_append]
    rw [countQ_append, countQ_append, countQ_fullQuoteIdentifier hA hk,
      literalToSQLOperand_aligned v]
    have e1 : countQ " IN " = 0 := by decide
    omega

theorem containsToSql_aligned_litKeyPath (a : String) (op : Operator) (k : String)
    (v : Value) (hA : noQuestionMark a = true) (hk : noQuestionMark k = true) :
    ∃ res, containsToSql a (.node op [.exprChild (.literal v), .exprChild (.keyPath k)]) =
        .ok res ∧ res.err = none ∧ countQ res.sql = res.args.length := by
  refine ⟨⟨"jsonb_exists(" ++ fullQuoteIdentifier a k ++ ", " ++ (literalToSQLOperand v).1
      ++ ")", [] ++ (literalToSQLOperand v).2, none⟩, ?_, rfl, ?_⟩
  · simp only [containsToSql, expressionSqlizerToSql, Option.isSome_none,
      Bool.false_eq_true, if_false]
  · simp only [List.nil_append]
    rw [countQ_append, countQ_append, countQ_append, countQ_append,
      countQ_fullQuoteIdentifier hA hk, literalToSQLOperand_aligned v]
    have e1 : countQ "jsonb_exists(" = 0 := by decide
    have e2 : countQ ", " = 0 := by decide
    have e3 : countQ ")" = 0 := by decide
    omega

theorem conjJoin_aligned (sep : String) (hsep : countQ sep = 0) :
    ∀ ss : List Sqlizer,
      (∀ s ∈ ss, ∃ r, toSql s = .ok r ∧ r.err = none ∧ countQ r.sql = r.args.length) →
      ∃ r, conjJoin ss sep = .ok r ∧ r.err = none ∧ countQ r.sql = r.args.length := by
  intro ss
  induction ss with
  | nil =>
    intro _
    exact ⟨⟨"", [], none⟩, rfl, rfl, by decide⟩
  | cons s rest ih =>
    intro h
    obtain ⟨r, hr, hrerr, hrc⟩ := h s (List.mem_cons_self s rest)
    obtain ⟨r2, hr2, hr2err, hr2c⟩ := ih (fun x hx => h x (List.mem_cons_of_mem s hx))
    have e1 : countQ "(" = 0 := by decide
    have e2 : countQ ")" = 0 := by decide
    by_cases hsql : r.sql = ""
    · refine ⟨r2, ?_, hr2err, hr2c⟩
      simp only [conjJoin, hr, hrerr, Option.isSome_none, Bool.false_eq_true, if_false,
        hr2, hr2err, hsql, if_true]
    · by_cases hsql2 : r2.sql = ""
      · refine ⟨⟨"(" ++ r.sql ++ ")", r.args, none⟩, ?_, rfl, ?_⟩
        · simp only [conjJoin, hr, hrerr, Option.isSome_none, Bool.false_eq_true, if_false,
            hr2, hr2err, hsql, hsql2, if_true]
        · show countQ ("(" ++ r.sql ++ ")") = r.args.length
          rw [countQ_append, countQ_append, hrc]
          omega
      · refine ⟨⟨"(" ++ r.sql ++ ")" ++ sep ++ r2.sql, r.args ++ r2.args, none⟩, ?_, rfl, ?_⟩
        · simp only [conjJoin, hr, hrerr, Option.isSome_none, Bool.false_eq_true, if_false,
            hr2, hr2err, hsql, hsql2, if_true]
        · simp only [List.length_append]
          rw [countQ_append, countQ_append, countQ_append, countQ_append, hrc, hr2c, hsep]
          omega

/- ## Unfolding lemmas for `newPredicateSqlizer` on each operator shape -/

theorem newPredicateSqlizer_and (f : predicateSqlizerFactory) (cs : List Predicate)
    (hne : cs.isEmpty = false) :
    newPredicateSqlizer f (.node .and cs) =
      (match compileChildList f cs with
       | (.ok ss, f2) => (.ok (.and ss), f2)
       | (.goError m, f2) => (.goError m, f2)
       | (.goPanic m, f2) => (.goPanic m, f2)) := by
  simp [newPredicateSqlizer, Predicate.IsEmpty, hne, Operator.IsCompound]

theorem newPredicateSqlizer_or (f : predicateSqlizerFactory) (cs : List Predicate)
    (hne : cs.isEmpty = false) :
    newPredicateSqlizer f (.node .or cs) =
      (match compileChildList f cs with
       | (.ok ss, f2) => (.ok (.or ss), f2)
       | (.goError m, f2) => (.goError m, f2)
       | (.goPanic m, f2) => (.goPanic m, f2)) := by
  simp [newPredicateSqlizer, Predicate.IsEmpty, hne, Operator.IsCompound]

theorem newPredicateSqlizer_not (f : predicateSqlizerFactory) (c : Predicate)
    (rest : List Predicate) :
    newPredicateSqlizer f (.node .not (c :: rest)) =
      (match newPredicateSqlizer f c with
       | (.ok s, f2) => (.ok (.notSqlizer s), f2)
       | (.goError m, f2) => (.goError m, f2)
       | (.goPanic m, f2) => (.goPanic m, f2)) := by
  simp [newPredicateSqlizer, Predicate.IsEmpty, Operator.IsCompound]

theorem newPredicateSqlizer_inOp (f : predicateSqlizerFactory) (cs : List Predicate)
    (hne : cs.isEmpty = false) :
    newPredicateSqlizer f (.node .inOp cs) =
      (.ok (.contains f.primaryTable (.node .inOp cs)), f) := by
  simp [newPredicateSqlizer, Predicate.IsEmpty, hne, Operator.IsCompound]

theorem newPredicateSqlizer_binary {op : Operator} (hop : op.IsBinary = true)
    (f : predicateSqlizerFactory) (cs : List Predicate) (hne : cs.isEmpty = false) :
    newPredicateSqlizer f (.node op cs) =
      (.ok (.comparison f.primaryTable (.node op cs)), f) := by
  cases op <;> simp only [Operator.IsBinary, Bool.false_eq_true] at hop <;>
    simp [newPredicateSqlizer, Predicate.IsEmpty, hne, Operator.IsCompound]

/- ## Shape extraction from `supportedOps` -/

theorem supportedOps_binary_shape {op : Operator} {cs : List Predicate}
    (hop : op.IsBinary = true) (h : supportedOps (.node op cs) = true) :
    ∃ l r, cs = [.exprChild l, .exprChild r] ∧ supportedExpr l = true ∧
      supportedExpr r = true := by
  cases op <;> simp only [Operator.IsBinary, Bool.false_eq_true] at hop <;>
  · rcases cs with _ | ⟨c0, _ | ⟨c1, _ | ⟨c2, rest⟩⟩⟩
    · simp [supportedOps] at h
    · simp [supportedOps] at h
    · rcases c0 with _ | e0 <;> rcases c1 with _ | e1 <;>
        simp only [supportedOps, Bool.and_eq_true, Bool.false_eq_true] at h
      exact ⟨e0, e1, rfl, h.1, h.2⟩
    · simp [supportedOps] at h

theorem supportedOps_inOp_shape {cs : List Predicate}
    (h : supportedOps (.node .inOp cs) = true) :
    (∃ k v, cs = [.exprChild (.keyPath k), .exprChild (.literal v)]) ∨
    (∃ v k, cs = [.exprChild (.literal v), .exprChild (.keyPath k)]) := by
  rcases cs with _ | ⟨c0, _ | ⟨c1, _ | ⟨c2, rest⟩⟩⟩
  · simp [supportedOps] at h
  · simp [supportedOps] at h
  · rcases c0 with ⟨op0, cs0⟩ | e0
    · simp [supportedOps] at h
    · rcases e0 with k0 | v0 | f0
      · rcases c1 with ⟨op1, cs1⟩ | e1
        · simp [supportedOps] at h
        · rcases e1 with k1 | v1 | f1
          · simp [supportedOps] at h
          · exact Or.inl ⟨_, _, rfl⟩
          · simp [supportedOps] at h
      · rcases c1 with ⟨op1, cs1⟩ | e1
        · simp [supportedOps] at h
        · rcases e1 with k1 | v1 | f1
          · exact Or.inr ⟨_, _, rfl⟩
          · simp [supportedOps] at h
          · simp [supportedOps] at h
      · simp [supportedOps] at h
  · simp [supportedOps] at h

theorem supportedOps_not_shape {cs : List Predicate}
    (h : supportedOps (.node .not cs) = true) :
    ∃ c, cs = [c] ∧ supportedOps c = true := by
  rcases cs with _ | ⟨c0, _ | ⟨c1, rest⟩⟩
  · simp [supportedOps] at h
  · exact ⟨c0, rfl, by simpa [supportedOps] using h⟩
  · simp [supportedOps] at h

theorem cleanIdentsList_cons {c : Predicate} {rest : List Predicate}
    (h : cleanIdentsList (c :: rest) = true) :
    cleanIdents c = true ∧ cleanIdentsList rest = true := by
  simpa [cleanIdentsList, Bool.and_eq_true] using h

theorem supportedOpsList_cons {c : Predicate} {rest : List Predicate}
    (h : supportedOpsList (c :: rest) = true) :
    supportedOps c = true ∧ supportedOpsList rest = true := by
  simpa [supportedOpsList, Bool.and_eq_true] using h

/-- The binary-comparison case of the compilation induction (it has no
recursive call, so it stands alone). -/
theorem binary_case_aligned {op : Operator} {cs : List Predicate}
    {f : predicateSqlizerFactory}
    (hop : op.IsBinary = true) (hsup : supportedOps (.node op cs) = true)
    (hclean : cleanIdents (.node op cs) = true)
    (hA : noQuestionMark f.primaryTable = true) :
    ∃ s r, newPredicateSqlizer f (.node op cs) = (.ok s, f) ∧ toSql s = .ok r ∧
      r.err = none ∧ countQ r.sql = r.args.length := by
  obtain ⟨l, r, hcs, hSl, hSr⟩ := supportedOps_binary_shape hop hsup
  subst hcs
  obtain ⟨hCl, hCr⟩ : cleanExprIdents l = true ∧ cleanExprIdents r = true := by
    simpa [cleanIdents, cleanIdentsList, Bool.and_eq_true] using hclean
  obtain ⟨res, hres, hreserr, hresc⟩ := comparisonToSql_aligned hA hop hSl hCl hSr hCr
  refine ⟨.comparison f.primaryTable (.node op [.exprChild l, .exprChild r]), res,
    ?_, ?_, hreserr, hresc⟩
  · rw [newPredicateSqlizer_binary hop f _ (by simp)]
  · exact hres

/- ## The main compilation alignment induction -/

/-- Combined strong induction on `2 * size` (single predicate) and
`2 * sizeList + 1` (child list): every supported, identifier-clean tree
compiles without error or panic, leaves the factory untouched, and
renders to a fragment whose `?` count equals its argument count. -/
theorem compileAligned_aux : ∀ k : Nat,
    (∀ (p : Predicate) (f : predicateSqlizerFactory), 2 * p.size ≤ k →
      supportedOps p = true → cleanIdents p = true →
      noQuestionMark f.primaryTable = true →
      ∃ s r, newPredicateSqlizer f p = (.ok s, f) ∧ toSql s = .ok r ∧
        r.err = none ∧ countQ r.sql = r.args.length) ∧
    (∀ (cs : List Predicate) (f : predicateSqlizerFactory),
      2 * Predicate.sizeList cs + 1 ≤ k →
      supportedOpsList cs = true → cleanIdentsList cs = true →
      noQuestionMark f.primaryTable = true →
      ∃ ss, compileChildList f cs = (.ok ss, f) ∧
        ∀ s ∈ ss, ∃ r, toSql s = .ok r ∧ r.err = none ∧
          countQ r.sql = r.args.length) := by
  intro k
  induction k using Nat.strong_induction_on with
  | _ k IH =>
    constructor
    · intro p f hk hsup hclean hA
      match p with
      | .exprChild e => simp [supportedOps] at hsup
      | .node op cs =>
        cases op
        case and =>
          obtain ⟨hne, hlist⟩ : cs.isEmpty = false ∧ supportedOpsList cs = true := by
            have h' := hsup
            simp only [supportedOps, Bool.and_eq_true, Bool.not_eq_true'] at h'
            exact h'
          have hcleanl : cleanIdentsList cs = true := by
            simpa [cleanIdents] using hclean
          have hkj : 2 * Predicate.sizeList cs + 1 < k := by
            simp only [Predicate.size] at hk; omega
          obtain ⟨ss, hcc, hall⟩ :=
            (IH _ hkj).2 cs f le_rfl hlist hcleanl hA
          obtain ⟨r, hr, hrerr, hrc⟩ := conjJoin_aligned " AND " (by decide) ss hall
          exact ⟨.and ss, r, by rw [newPredicateSqlizer_and f cs hne, hcc], hr, hrerr, hrc⟩
        case or =>
          obtain ⟨hne, hlist⟩ : cs.isEmpty = false ∧ supportedOpsList cs = true := by
            have h' := hsup
            simp only [supportedOps, Bool.and_eq_true, Bool.not_eq_true'] at h'
            exact h'
          have hcleanl : cleanIdentsList cs = true := by
            simpa [cleanIdents] using hclean
          have hkj : 2 * Predicate.sizeList cs + 1 < k := by
            simp only [Predicate.size] at hk; omega
          obtain ⟨ss, hcc, hall⟩ :=
            (IH _ hkj).2 cs f le_rfl hlist hcleanl hA
          obtain ⟨r, hr, hrerr, hrc⟩ := conjJoin_aligned " OR " (by decide) ss hall
          exact ⟨.or ss, r, by rw [newPredicateSqlizer_or f cs hne, hcc], hr, hrerr, hrc⟩
        case not =>
          obtain ⟨c, hcs, hsupc⟩ := supportedOps_not_shape hsup
          subst hcs
          have hcleanc : cleanIdents c = true := by
            simpa [cleanIdents, cleanIdentsList, Bool.and_eq_true] using hclean
          have hkj : 2 * Predicate.size c < k := by
            simp only [Predicate.size, Predicate.sizeList] at hk
            have := Predicate.size_pos c
            omega
          obtain ⟨s, r, hnew, htos, herr, hcount⟩ :=
            (IH _ hkj).1 c f le_rfl hsupc hcleanc hA
          refine ⟨.notSqlizer s, r, ?_, ?_, herr, hcount⟩
          · rw [newPredicateSqlizer_not f c [], hnew]
          · simp only [toSql, htos, herr, Option.isSome_none, Bool.false_eq_true, if_false]
        case inOp =>
          rcases supportedOps_inOp_shape hsup with ⟨kp, v, hcs⟩ | ⟨v, kp, hcs⟩
          · subst hcs
            have hkclean : noQuestionMark kp = true := by
              simpa [cleanIdents, cleanIdentsList, cleanExprIdents,
                Bool.and_eq_true] using hclean
            obtain ⟨res, hres, hreserr, hresc⟩ :=
              containsToSql_aligned_keyPathLit f.primaryTable .inOp kp v hA hkclean
            refine ⟨.contains f.primaryTable
              (.node .inOp [.exprChild (.keyPath kp), .exprChild (.literal v)]), res,
              ?_, ?_, hreserr, hresc⟩
            · rw [newPredicateSqlizer_inOp f _ (by simp)]
            · exact hres
          · subst hcs
            have hkclean : noQuestionMark kp = true := by
              simpa [cleanIdents, cleanIdentsList, cleanExprIdents,
                Bool.and_eq_true] using hclean
            obtain ⟨res, hres, hreserr, hresc⟩ :=
              containsToSql_aligned_litKeyPath f.primaryTable .inOp kp v hA hkclean
            refine ⟨.contains f.primaryTable
              (.node .inOp [.exprChild (.literal v), .exprChild (.keyPath kp)]), res,
              ?_, ?_, hreserr, hresc⟩
            · rw [newPredicateSqlizer_inOp f _ (by simp)]
            · exact hres
        case functional => simp [supportedOps] at hsup
        all_goals exact binary_case_aligned (by decide) hsup hclean hA
    · intro cs f hk hsup hclean hA
      match cs with
      | [] =>
        exact ⟨[], rfl, by simp⟩
      | c :: rest =>
        obtain ⟨hsc, hsr⟩ := supportedOpsList_cons hsup
        obtain ⟨hcc, hcr⟩ := cleanIdentsList_cons hclean
        have hsizes : Predicate.sizeList (c :: rest) =
            Predicate.size c + Predicate.sizeList rest := rfl
        have hk1 : 2 * Predicate.size c < k := by
          have := Predicate.size_pos c
          rw [hsizes] at hk
          omega
        have hk2 : 2 * Predicate.sizeList rest + 1 < k := by
          have := Predicate.size_pos c
          rw [hsizes] at hk
          omega
        obtain ⟨s, r, hnew, htos, herr, hcount⟩ :=
          (IH _ hk1).1 c f le_rfl hsc hcc hA
        obtain ⟨ss, hcc2, hall⟩ := (IH _ hk2).2 rest f le_rfl hsr hcr hA
        refine ⟨s :: ss, ?_, ?_⟩
        · simp only [compileChildList, hnew, hcc2]
        · intro x hx
          rcases List.mem_cons.mp hx with hx | hx
          · exact hx ▸ ⟨r, htos, herr, hcount⟩
          · exact hall x hx

/- ## Join/alias manager lemmas -/

theorem joinedTable_equal_iff {a b : joinedTable} : a.equal b = true ↔ a = b := by
  cases a; cases b
  simp [joinedTable.equal, joinedTable.mk.injEq, Bool.and_eq_true, and_assoc]

theorem joinedTable_equal_self (t : joinedTable) : t.equal t = true :=
  joinedTable_equal_iff.mpr rfl

theorem findEqualIdx_some {jts : List joinedTable} {t : joinedTable} :
    ∀ {i}, findEqualIdx jts t = some i → jts.get? i = some t := by
  induction jts with
  | nil => intro i h; simp [findEqualIdx] at h
  | cons a rest ih =>
    intro i h
    by_cases ha : a.equal t = true
    · simp only [findEqualIdx, ha, if_true, Option.some.injEq] at h
      subst h
      simp [joinedTable_equal_iff.mp ha]
    · simp only [findEqualIdx, ha, if_false] at h
      obtain ⟨i0, h0, hi⟩ := Option.map_eq_some'.mp h
      subst hi
      simpa using ih h0

theorem findEqualIdx_min {jts : List joinedTable} {t : joinedTable} :
    ∀ {i}, findEqualIdx jts t = some i → ∀ k, k < i → jts.get? k ≠ some t := by
  induction jts with
  | nil => intro i h; simp [findEqualIdx] at h
  | cons a rest ih =>
    intro i h k hk
    by_cases ha : a.equal t = true
    · simp only [findEqualIdx, ha, if_true, Option.some.injEq] at h
      omega
    · simp only [findEqualIdx, ha, if_false] at h
      obtain ⟨i0, h0, hi⟩ := Option.map_eq_some'.mp h
      subst hi
      match k with
      | 0 =>
        intro hget
        simp only [List.get?_cons_zero, Option.some.injEq] at hget
        exact ha (hget ▸ joinedTable_equal_self t)
      | k0 + 1 =>
        simpa using ih h0 k0 (by omega)

theorem findEqualIdx_none_mem {jts : List joinedTable} {t : joinedTable}
    (h : findEqualIdx jts t = none) : ∀ x ∈ jts, x ≠ t := by
  induction jts with
  | nil => simp
  | cons a rest ih =>
    by_cases ha : a.equal t = true
    · simp [findEqualIdx, ha] at h
    · have ha' : a.equal t = false := by simpa using ha
      simp only [findEqualIdx, ha', Bool.false_eq_true, if_false,
        Option.map_eq_none'] at h
      intro x hx
      rcases List.mem_cons.mp hx with hx | hx
      · subst hx
        intro hat
        exact ha (hat ▸ joinedTable_equal_self t)
      · exact ih h x hx

theorem findEqualIdx_concat_self {jts : List joinedTable} {t : joinedTable}
    (h : findEqualIdx jts t = none) :
    findEqualIdx (jts ++ [t]) t = some jts.length := by
  induction jts with
  | nil => simp [findEqualIdx, joinedTable_equal_self]
  | cons a rest ih =>
    by_cases ha : a.equal t = true
    · simp [findEqualIdx, ha] at h
    · have ha' : a.equal t = false := by simpa using ha
      simp only [findEqualIdx, ha', Bool.false_eq_true, if_false,
        Option.map_eq_none'] at h
      show (if a.equal t = true then some 0
          else (findEqualIdx (rest ++ [t]) t).map (· + 1)) = some (rest.length + 1)
      rw [ha', ih h]
      simp

theorem createLeftJoin_eq_found {f : predicateSqlizerFactory} {t : joinedTable} {i : Nat}
    (h : findEqualIdx f.joinedTables t = some i) :
    createLeftJoin f t.secondaryTable t.primaryColumn t.secondaryColumn =
      (aliasName t.secondaryTable i, f) := by
  simp [createLeftJoin, h]

theorem createLeftJoin_eq_append {f : predicateSqlizerFactory} {t : joinedTable}
    (h : findEqualIdx f.joinedTables t = none) :
    createLeftJoin f t.secondaryTable t.primaryColumn t.secondaryColumn =
      (aliasName t.secondaryTable f.joinedTables.length,
       { f with joinedTables := f.joinedTables ++ [t] }) := by
  simp [createLeftJoin, h]

/-- After any `createLeftJoin` request for spec `t`, the post-state holds
`t` at some (first) index `i` and the returned alias is `aliasName` at
`i`. -/
theorem createLeftJoin_post (f : predicateSqlizerFactory) (t : joinedTable) :
    ∃ i, (createLeftJoin f t.secondaryTable t.primaryColumn t.secondaryColumn).2.joinedTables.get? i
        = some t ∧
      (createLeftJoin f t.secondaryTable t.primaryColumn t.secondaryColumn).1 =
        aliasName t.secondaryTable i ∧
      ∀ k, k < i →
        (createLeftJoin f t.secondaryTable t.primaryColumn t.secondaryColumn).2.joinedTables.get? k
          ≠ some t := by
  cases h : findEqualIdx f.joinedTables t with
  | some i =>
    rw [createLeftJoin_eq_found h]
    exact ⟨i, findEqualIdx_some h, rfl, fun k hk => findEqualIdx_min h k hk⟩
  | none =>
    rw [createLeftJoin_eq_append h]
    refine ⟨f.joinedTables.length, ?_, rfl, ?_⟩
    · simpa using List.get?_concat_length f.joinedTables t
    · intro k hk hget
      rw [List.get?_append hk] at hget
      exact findEqualIdx_none_mem h t (List.get?_mem hget) rfl

theorem natToDec_tAlias_ne_user (i : Nat) : "_t" ++ natToDec i ≠ "_user" := by
  intro h
  have h2 : ("_t" ++ natToDec i).data = "_user".data := by rw [h]
  rw [String.data_append] at h2
  have h3 : "_t".data = ['_', 't'] := rfl
  have h4 : "_user".data = ['_', 'u', 's', 'e', 'r'] := rfl
  rw [h3, h4] at h2
  simp only [List.cons_append, List.nil_append, List.cons.injEq] at h2
  exact absurd h2.2.1 (by decide)

theorem natToDec_tAlias_inj {i j : Nat} (h : "_t" ++ natToDec i = "_t" ++ natToDec j) :
    i = j := by
  have h2 : ("_t" ++ natToDec i).data = ("_t" ++ natToDec j).data := by rw [h]
  rw [String.data_append, String.data_append] at h2
  have h3 := List.append_cancel_left h2
  exact natToDec_inj (String.ext h3)

/- ## Claim theorems -/

/-- C1: the spec (and the NotSqlizer doc comment) require that when the
single child of a Not predicate compiles successfully to fragment `F`
with args `A`, the Not sqlizer returns `NOT (F)` with the same args.  The
code inverts the condition (`if err != nil` instead of `err == nil` in
builder.go 570), so at this input - whose child compiles successfully -
the fragment comes back unwrapped.  This theorem evaluates the embedded
code at the failing input. -/
theorem c1_notSqlizer_unwrapped_on_success_eval :
    toSql (.comparison "note"
        (.node .equal [.exprChild (.keyPath "a"), .exprChild (.literal (.str "x"))])) =
      .ok ⟨"\"note\".\"a\"=?", [.str "x"], none⟩ ∧
    toSql (.notSqlizer (.comparison "note"
        (.node .equal [.exprChild (.keyPath "a"), .exprChild (.literal (.str "x"))]))) =
      .ok ⟨"\"note\".\"a\"=?", [.str "x"], none⟩ ∧
    ("\"note\".\"a\"=?" : String) ≠ "NOT (" ++ "\"note\".\"a\"=?" ++ ")" :=
  ⟨rfl, rfl, by decide⟩

/-- C2 (amended): for every non-empty predicate tree built solely from
the supported operators (And, Or, Not, the eight binary comparisons, In
with a \x7bKeyPath, Literal\x7d or \x7bLiteral, KeyPath\x7d pairing) in which,
additionally, no identifier spliced into the SQL text (a key path, the
primary-table alias, a distance-function field or a user-data column
name) contains the `?` character, compilation terminates with no error
and no panic, leaves the factory unchanged, and the number of `?`
characters in the fragment equals the length of the bind-argument
list.  The identifier proviso is forced by the counterexample below. -/
theorem c2_placeholder_alignment (f : predicateSqlizerFactory) (p : Predicate)
    (hsup : supportedOps p = true) (hclean : cleanIdents p = true)
    (hA : noQuestionMark f.primaryTable = true) :
    ∃ s r, newPredicateSqlizer f p = (.ok s, f) ∧ toSql s = .ok r ∧
      r.err = none ∧ countQ r.sql = r.args.length :=
  (compileAligned_aux (2 * p.size)).1 p f le_rfl hsup hclean hA

/-- Witness for C2: a concrete And-of-comparison-and-negated-In tree over
primary table `note`. -/
theorem c2_placeholder_alignment_witness :
    ∃ s r, newPredicateSqlizer (predicateSqlizerFactory.mk "db" "user" "note" [] [])
        (.node .and [.node .equal [.exprChild (.keyPath "a"), .exprChild (.literal (.str "x"))],
          .node .not [.node .inOp [.exprChild (.keyPath "b"),
            .exprChild (.literal (.arr [.str "u", .ref "k"]))]]]) =
      (.ok s, predicateSqlizerFactory.mk "db" "user" "note" [] []) ∧
      toSql s = .ok r ∧ r.err = none ∧ countQ r.sql = r.args.length :=
  c2_placeholder_alignment (predicateSqlizerFactory.mk "db" "user" "note" [] [])
    (.node .and [.node .equal [.exprChild (.keyPath "a"), .exprChild (.literal (.str "x"))],
      .node .not [.node .inOp [.exprChild (.keyPath "b"),
        .exprChild (.literal (.arr [.str "u", .ref "k"]))]]])
    (by decide) (by decide) (by decide)

/-- C2 counterexample: the claim as stated quantifies over every tree
built from the supported operators, with no restriction on identifier
contents.  A key path containing `?` defeats it: the quoted identifier
carries the `?` into the fragment, so the fragment holds two `?`
characters while only one argument is bound (and squirrel's positional
placeholder rebinding, which consumes this fragment, is not
quote-aware). -/
theorem c2_placeholder_alignment_counterexample :
    supportedOps (.node .equal [.exprChild (.keyPath "a?"),
        .exprChild (.literal (.str "x"))]) = true ∧
    newPredicateSqlizer (predicateSqlizerFactory.mk "db" "user" "note" [] [])
        (.node .equal [.exprChild (.keyPath "a?"), .exprChild (.literal (.str "x"))]) =
      (.ok (.comparison "note"
        (.node .equal [.exprChild (.keyPath "a?"), .exprChild (.literal (.str "x"))])),
       predicateSqlizerFactory.mk "db" "user" "note" [] []) ∧
    toSql (.comparison "note"
        (.node .equal [.exprChild (.keyPath "a?"), .exprChild (.literal (.str "x"))])) =
      .ok ⟨"\"note\".\"a?\"=?", [.str "x"], none⟩ ∧
    countQ "\"note\".\"a?\"=?" = 2 ∧
    ([Value.str "x"] : List Value).length = 1 :=
  ⟨by decide, rfl, rfl, by decide, rfl⟩

/-- C3: the claim says caller-supplied strings reach only the bind list,
never the SQL text, so a single quote in a role name cannot change the
SQL structure of the access-control fragment.  The code instead splices
the JSON-escaped role names and user id into the SQL text;
JSON escaping leaves single quotes untouched, so the role `a'b` lands
verbatim inside the single-quoted SQL literal and the fragment ends up
with an odd number of single quotes - its quoting structure is broken.
This theorem evaluates the embedded code at the failing input. -/
theorem c3_access_role_injection_eval :
    accessToSql ⟨"db", ⟨"u", ["a\x27b"]⟩, "read"⟩ =
      ⟨"(_access @> \x27[\x7b\"role\":\"a\x27b\"\x7d]\x27 OR _access @> \x27[\x7b\"user_id\":\"u\"\x7d]\x27 OR _access IS NULL OR _owner_id = ?)",
       [.str "u"], none⟩ ∧
    ((accessToSql ⟨"db", ⟨"u", ["a\x27b"]⟩, "read"⟩).sql.data.count squote) % 2 = 1 :=
  ⟨rfl, by decide⟩

/-- C6: the claim says an empty acting database id forces the empty
fragment with no bind arguments regardless of the user.  The code's
`databaseID == ""` branch only assigns the zero value and does not
return (builder.go 243-245), so with an empty database id and user
`alice` the full user fragment with one bound argument is produced.
This theorem evaluates the embedded code at the failing input. -/
theorem c6_access_empty_database_id_eval :
    (accessToSql ⟨"", ⟨"alice", []⟩, "read"⟩).sql =
      "(_access @> \x27[\x7b\"user_id\":\"alice\"\x7d]\x27 OR _access IS NULL OR _owner_id = ?)" ∧
    (accessToSql ⟨"", ⟨"alice", []⟩, "read"⟩).sql ≠ "" ∧
    (accessToSql ⟨"", ⟨"alice", []⟩, "read"⟩).args = [.str "alice"] :=
  ⟨rfl, by decide, rfl⟩

/-- C7: a non-empty array literal of length N compiles to a parenthesized
list of exactly N placeholders with exactly N bound arguments in input
order, references unwrapped to their keys by `literalToSQLValue`; the
empty array compiles to the literal text `(NULL)` with no arguments. -/
theorem c7_literal_array_compilation (vs : List Value) (h : vs ≠ []) :
    literalToSQLOperand (.arr vs) =
      ("(" ++ Placeholders vs.length ++ ")", vs.map literalToSQLValue) ∧
    countQ ("(" ++ Placeholders vs.length ++ ")") = vs.length ∧
    literalToSQLOperand (.arr []) = ("(NULL)", []) := by
  refine ⟨?_, ?_, rfl⟩
  · have hpos : vs.length > 0 := List.length_pos.mpr h
    simp [literalToSQLOperand, hpos]
  · rw [countQ_append, countQ_append, countQ_Placeholders]
    have e1 : countQ "(" = 0 := by decide
    have e2 : countQ ")" = 0 := by decide
    omega

/-- Witness for C7 at the two-element array `[Reference k, "s"]`. -/
theorem c7_literal_array_compilation_witness :
    literalToSQLOperand (.arr [.ref "k", .str "s"]) =
      ("(" ++ Placeholders 2 ++ ")", [.str "k", .str "s"]) ∧
    countQ ("(" ++ Placeholders 2 ++ ")") = 2 ∧
    literalToSQLOperand (.arr []) = ("(NULL)", []) :=
  c7_literal_array_compilation [.ref "k", .str "s"] (List.cons_ne_nil _ _)

/-- C10: `accessPredicateSqlizer.ToSql` returns a nil error on every
input: the only error-looking paths are panics guarded by a marshal that
cannot fail on strings, and the named error return is never assigned a
non-nil value. -/
theorem c10_accessToSql_err_none (databaseID : String) (user : UserInfo)
    (level : ACLLevel) : (accessToSql ⟨databaseID, user, level⟩).err = none := by
  simp only [accessToSql]
  split <;> rfl

/-- A `createLeftJoin` call never moves existing entries: an entry at
index `i` before the call is still at index `i` after it. -/
theorem createLeftJoin_preserves_get {f : predicateSqlizerFactory} {i : Nat}
    {x : joinedTable} (st pc sc : String)
    (h : f.joinedTables.get? i = some x) :
    (createLeftJoin f st pc sc).2.joinedTables.get? i = some x := by
  cases hf : findEqualIdx f.joinedTables ⟨st, pc, sc⟩ with
  | some j =>
    rw [createLeftJoin_eq_found hf]
    exact h
  | none =>
    rw [createLeftJoin_eq_append hf]
    have hlt : i < f.joinedTables.length := (List.get?_eq_some.mp h).1
    show (f.joinedTables ++ ([⟨st, pc, sc⟩] : List joinedTable)).get? i = some x
    rw [List.get?_append hlt]
    exact h

/-- C4 (amended): requesting the same JoinSpec twice returns the same
alias and leaves the join list unchanged; and two requests for different
JoinSpecs return distinct aliases, unless both secondary tables are the
reserved `_user` table (whose fixed alias collapses even distinct specs,
which is the counterexample to the claim as stated). -/
theorem c4_join_dedup_amended :
    (∀ (f : predicateSqlizerFactory) (t : joinedTable),
      (createLeftJoin (createLeftJoin f t.secondaryTable t.primaryColumn t.secondaryColumn).2
          t.secondaryTable t.primaryColumn t.secondaryColumn).1 =
        (createLeftJoin f t.secondaryTable t.primaryColumn t.secondaryColumn).1 ∧
      (createLeftJoin (createLeftJoin f t.secondaryTable t.primaryColumn t.secondaryColumn).2
          t.secondaryTable t.primaryColumn t.secondaryColumn).2 =
        (createLeftJoin f t.secondaryTable t.primaryColumn t.secondaryColumn).2) ∧
    (∀ (f : predicateSqlizerFactory) (A B : joinedTable), A ≠ B →
      ¬(A.secondaryTable = "_user" ∧ B.secondaryTable = "_user") →
      (createLeftJoin f A.secondaryTable A.primaryColumn A.secondaryColumn).1 ≠
        (createLeftJoin (createLeftJoin f A.secondaryTable A.primaryColumn A.secondaryColumn).2
          B.secondaryTable B.primaryColumn B.secondaryColumn).1) := by
  constructor
  · intro f t
    cases h : findEqualIdx f.joinedTables t with
    | some i =>
      rw [createLeftJoin_eq_found h, createLeftJoin_eq_found h]
      exact ⟨rfl, rfl⟩
    | none =>
      rw [createLeftJoin_eq_append h]
      have h2 : findEqualIdx
          ({ f with joinedTables := f.joinedTables ++ [t] } :
            predicateSqlizerFactory).joinedTables t = some f.joinedTables.length := by
        simpa using findEqualIdx_concat_self h
      rw [createLeftJoin_eq_found h2]
      exact ⟨rfl, rfl⟩
  · intro f A B hne hnu
    obtain ⟨i, hgetA, haliasA, hminA⟩ := createLeftJoin_post f A
    obtain ⟨j, hgetB, haliasB, hminB⟩ :=
      createLeftJoin_post
        (createLeftJoin f A.secondaryTable A.primaryColumn A.secondaryColumn).2 B
    rw [haliasA, haliasB]
    by_cases hu : A.secondaryTable = "_user"
    · have hB : B.secondaryTable ≠ "_user" := fun hB => hnu ⟨hu, hB⟩
      rw [hu]
      simp only [aliasName, if_pos rfl, if_neg hB]
      exact fun hh => natToDec_tAlias_ne_user j hh.symm
    · by_cases hv : B.secondaryTable = "_user"
      · rw [hv]
        simp only [aliasName, if_pos rfl, if_neg hu]
        exact natToDec_tAlias_ne_user i
      · simp only [aliasName, if_neg hu, if_neg hv]
        intro hh
        have hij : i = j := natToDec_tAlias_inj hh
        have hgetA2 :
            (createLeftJoin
              (createLeftJoin f A.secondaryTable A.primaryColumn A.secondaryColumn).2
              B.secondaryTable B.primaryColumn B.secondaryColumn).2.joinedTables.get? i =
              some A :=
          createLeftJoin_preserves_get B.secondaryTable B.primaryColumn B.secondaryColumn hgetA
        rw [hij] at hgetA2
        rw [hgetA2] at hgetB
        exact hne (Option.some.inj hgetB)

/-- C4 counterexample: the JoinSpecs `(_user, _id, id)` and
`(_user, _owner_id, id)` differ in the primary column, yet both requests
return the same alias `_user`, refuting the distinct-alias half of the
claim as stated. -/
theorem c4_join_dedup_counterexample :
    (⟨"_user", "_id", "id"⟩ : joinedTable) ≠ ⟨"_user", "_owner_id", "id"⟩ ∧
    (createLeftJoin (predicateSqlizerFactory.mk "db" "user" "note" [] [])
        "_user" "_id" "id").1 = "_user" ∧
    (createLeftJoin
        (createLeftJoin (predicateSqlizerFactory.mk "db" "user" "note" [] [])
          "_user" "_id" "id").2
        "_user" "_owner_id" "id").1 = "_user" :=
  ⟨by decide, rfl, rfl⟩

/-- Witness for C4 at the non-user spec `(tags, _id, id)` (same spec
twice) and the distinct pair `(tags, _id, id)` / `(friends, _id, id)`. -/
theorem c4_join_dedup_amended_witness :
    ((createLeftJoin (createLeftJoin (predicateSqlizerFactory.mk "db" "user" "note" [] [])
        "tags" "_id" "id").2 "tags" "_id" "id").1 =
      (createLeftJoin (predicateSqlizerFactory.mk "db" "user" "note" [] [])
        "tags" "_id" "id").1) ∧
    ((createLeftJoin (predicateSqlizerFactory.mk "db" "user" "note" [] [])
        "tags" "_id" "id").1 ≠
      (createLeftJoin (createLeftJoin (predicateSqlizerFactory.mk "db" "user" "note" [] [])
          "tags" "_id" "id").2 "friends" "_id" "id").1) :=
  ⟨(c4_join_dedup_amended.1 (predicateSqlizerFactory.mk "db" "user" "note" [] [])
      ⟨"tags", "_id", "id"⟩).1,
   c4_join_dedup_amended.2 (predicateSqlizerFactory.mk "db" "user" "note" [] [])
      ⟨"tags", "_id", "id"⟩ ⟨"friends", "_id", "id"⟩ (by decide) (by decide)⟩

/-- C5: a join request whose secondary table is the reserved `_user`
table always returns the fixed alias `_user`, whatever the current join
list; any other secondary table receives the positional alias
`_t<index>`, where `index` is the (first) position of the spec in the
accumulated join list after the request. -/
theorem c5_alias_assignment (f : predicateSqlizerFactory) (st pc sc : String) :
    (st = "_user" → (createLeftJoin f st pc sc).1 = "_user") ∧
    (st ≠ "_user" → ∃ i, (createLeftJoin f st pc sc).1 = "_t" ++ natToDec i ∧
      (createLeftJoin f st pc sc).2.joinedTables.get? i = some ⟨st, pc, sc⟩ ∧
      ∀ k, k < i →
        (createLeftJoin f st pc sc).2.joinedTables.get? k ≠ some ⟨st, pc, sc⟩) := by
  obtain ⟨i, hget, halias, hmin⟩ := createLeftJoin_post f ⟨st, pc, sc⟩
  constructor
  · intro hu
    rw [halias, hu]
    simp [aliasName]
  · intro hne
    refine ⟨i, ?_, hget, hmin⟩
    rw [halias]
    simp [aliasName, hne]

/-- Witness for C5: `_user` requested after another join still gets the
fixed alias, and a plain table gets a positional `_t` alias. -/
theorem c5_alias_assignment_witness :
    (createLeftJoin (predicateSqlizerFactory.mk "db" "user" "note"
        [⟨"tags", "_id", "id"⟩] []) "_user" "_id" "id").1 = "_user" ∧
    ∃ i, (createLeftJoin (predicateSqlizerFactory.mk "db" "user" "note" [] [])
        "tags" "_id" "id").1 = "_t" ++ natToDec i ∧
      (createLeftJoin (predicateSqlizerFactory.mk "db" "user" "note" [] [])
        "tags" "_id" "id").2.joinedTables.get? i = some ⟨"tags", "_id", "id"⟩ ∧
      ∀ k, k < i →
        (createLeftJoin (predicateSqlizerFactory.mk "db" "user" "note" [] [])
          "tags" "_id" "id").2.joinedTables.get? k ≠ some ⟨"tags", "_id", "id"⟩ :=
  ⟨(c5_alias_assignment (predicateSqlizerFactory.mk "db" "user" "note"
      [⟨"tags", "_id", "id"⟩] []) "_user" "_id" "id").1 rfl,
   (c5_alias_assignment (predicateSqlizerFactory.mk "db" "user" "note" [] [])
      "tags" "_id" "id").2 (by decide)⟩

/-- C8: compiling a UserDiscoverFunc predicate against a primary table
other than the user record table fails with the `InvalidContext` error
(`user discover predicate can only be used on user record`) and returns
the factory exactly as it was: no join is requested and no transient
column is registered. -/
theorem c8_userDiscover_invalid_context (f : predicateSqlizerFactory)
    (args : List (String × Value)) (h : f.dbUserRecordType ≠ f.primaryTable) :
    newUserDiscoverFunctionalPredicateSqlizer f args =
      (.goError "user discover predicate can only be used on user record", f) := by
  simp [newUserDiscoverFunctionalPredicateSqlizer, h]

/-- Witness for C8: a factory whose primary table `note` is not the user
record table `user`. -/
theorem c8_userDiscover_invalid_context_witness :
    newUserDiscoverFunctionalPredicateSqlizer
        (predicateSqlizerFactory.mk "db" "user" "note" [] []) [] =
      (.goError "user discover predicate can only be used on user record",
       predicateSqlizerFactory.mk "db" "user" "note" [] []) :=
  c8_userDiscover_invalid_context
    (predicateSqlizerFactory.mk "db" "user" "note" [] []) [] (by decide)

theorem count_qmark_replicate_zeroDigit (k : Nat) :
    (List.replicate k (digitChar 0)).count qmark = 0 := by
  induction k with
  | zero => simp
  | succ k ih =>
    rw [List.replicate_succ]
    have h : (digitChar 0 == qmark) = false := by decide
    simp [List.count_cons, h, ih]

theorem countQ_padZeros6 (m : Nat) : countQ (padZeros6 m) = 0 := by
  rw [padZeros6, countQ_append]
  have h1 : countQ (String.mk (List.replicate (6 - (natToDecAux m m).length)
      (digitChar 0))) = 0 := count_qmark_replicate_zeroDigit _
  rw [h1, countQ_natToDec]

theorem countQ_formatFixed6Frac (n d : Nat) : countQ (formatFixed6Frac n d) = 0 := by
  show countQ (natToDec ((2 * n * 1000000 + d) / (2 * d) / 1000000) ++ "." ++
      padZeros6 ((2 * n * 1000000 + d) / (2 * d) % 1000000)) = 0
  rw [countQ_append, countQ_append, countQ_natToDec, countQ_padZeros6]
  decide

theorem countQ_formatFixed6 (q : Rat) : countQ (formatFixed6 q) = 0 := by
  rw [formatFixed6]
  by_cases h : q.num < 0
  · rw [if_pos h, countQ_append, countQ_formatFixed6Frac]
    decide
  · rw [if_neg h]
    exact countQ_formatFixed6Frac _ _

/-- C9: a DistanceFunc-based sort with a valid order compiles to a
fragment with the longitude and latitude formatted straight into the SQL
text as fixed-notation numeric literals; the sort path returns only a
string (no bind-argument list exists, matching the Go signature), and
the fragment holds no `?` placeholder. -/
theorem c9_distance_sort_inline (aliasA field : String) (loc : Location)
    (ord : SortOrder) (hord : ord = .asc ∨ ord = .desc)
    (hA : noQuestionMark aliasA = true) (hf : noQuestionMark field = true) :
    sortOrderBySQL aliasA ⟨"", some (.distance field loc), ord⟩ =
      .ok ("ST_Distance_Sphere(" ++ fullQuoteIdentifier aliasA field ++ ", ST_MakePoint("
        ++ formatFixed6 loc.lng ++ ", " ++ formatFixed6 loc.lat ++ "))"
        ++ " " ++ (if ord = SortOrder.asc then "ASC" else "DESC")) ∧
    countQ ("ST_Distance_Sphere(" ++ fullQuoteIdentifier aliasA field ++ ", ST_MakePoint("
        ++ formatFixed6 loc.lng ++ ", " ++ formatFixed6 loc.lat ++ "))"
        ++ " " ++ (if ord = SortOrder.asc then "ASC" else "DESC")) = 0 := by
  constructor
  · rcases hord with h | h <;> subst h <;> rfl
  · simp only [countQ_append]
    rw [countQ_fullQuoteIdentifier hA hf, countQ_formatFixed6, countQ_formatFixed6]
    have e1 : countQ "ST_Distance_Sphere(" = 0 := by decide
    have e2 : countQ ", ST_MakePoint(" = 0 := by decide
    have e3 : countQ ", " = 0 := by decide
    have e4 : countQ "))" = 0 := by decide
    have e5 : countQ " " = 0 := by decide
    have e6 : countQ (if ord = SortOrder.asc then "ASC" else "DESC") = 0 := by
      by_cases h : ord = SortOrder.asc
      · rw [if_pos h]; decide
      · rw [if_neg h]; decide
    omega

/-- Witness for C9 at alias `note`, field `loc`, location `(7, 3)`,
ascending order. -/
theorem c9_distance_sort_inline_witness :
    sortOrderBySQL "note" ⟨"", some (.distance "loc" ⟨7, 3⟩), .asc⟩ =
      .ok ("ST_Distance_Sphere(" ++ fullQuoteIdentifier "note" "loc" ++ ", ST_MakePoint("
        ++ formatFixed6 (Location.mk 7 3).lng ++ ", "
        ++ formatFixed6 (Location.mk 7 3).lat ++ "))"
        ++ " " ++ (if SortOrder.asc = SortOrder.asc then "ASC" else "DESC")) ∧
    countQ ("ST_Distance_Sphere(" ++ fullQuoteIdentifier "note" "loc" ++ ", ST_MakePoint("
        ++ formatFixed6 (Location.mk 7 3).lng ++ ", "
        ++ formatFixed6 (Location.mk 7 3).lat ++ "))"
        ++ " " ++ (if SortOrder.asc = SortOrder.asc then "ASC" else "DESC")) = 0 :=
  c9_distance_sort_inline "note" "loc" ⟨7, 3⟩ .asc (Or.inl rfl) (by decide) (by decide)
